import Mathlib

/-!
Shallow embedding of the application engine in
src/services/linked-in-job.service.ts: the screening cascade and wizard
stepping loop of applyForJob, the pagination loop of init, and the
applied-jobs ledger (writeAppliedJobs).  Page interactions (selector waits,
clicks, attribute reads) are modelled by explicit environment values; machine
behaviour of the page is the list of progress readings it yields.
-/

/-- interface IAppliedJob of the source: one entry of the applied-jobs ledger. -/
structure IAppliedJob where
  title : String
  company : String
  appliedSuccessfully : Bool
deriving DecidableEq

/-- The record produced by loadJobDetails: each field is the trimmed
textContent of its selector, or undefined (modelled as none) when the element
is absent. -/
structure JobDetails where
  title : Option String
  company : Option String
  description : Option String
deriving DecidableEq

/-- interface IApplyForJobOptions of the source.  The source accesses both
fields with optional chaining, so each is modelled as an Option; note that a
present empty list is distinct from an absent field, exactly as in JS. -/
structure IApplyForJobOptions where
  blackListCompanies : Option (List String)
  descriptionKeywords : Option (List String)
deriving DecidableEq

/-- JS truthiness test of an optional string: undefined and the empty string
are falsy, every other string is truthy. -/
def strFalsy : Option String → Bool
  | none => true
  | some s => s == ""

/-- Character-list prefix test, used to implement substring containment. -/
def beginsWith : List Char → List Char → Bool
  | [], _ => true
  | _ :: _, [] => false
  | a :: as, b :: bs => a == b && beginsWith as bs

/-- Substring containment (String.prototype.includes) on char lists:
the first list occurs contiguously inside the second. -/
def containsSub (needle : List Char) : List Char → Bool
  | [] => beginsWith needle []
  | c :: t => beginsWith needle (c :: t) || containsSub needle t

/-- description.toLocaleLowerCase().includes(keyword.toLocaleLowerCase()) of
the source, with toLocaleLowerCase modelled as String.toLower. -/
def includesLower (s keyword : String) : Bool :=
  containsSub keyword.toLower.data s.toLower.data

/-- Result of the screening cascade at the top of applyForJob: which early
return was taken, or accept when control reaches the apply click. -/
inductive ScreenResult where
  | skipIncomplete
  | skipAlreadyApplied
  | skipBlacklisted
  | skipKeywordMismatch
  | accept
deriving DecidableEq

/-- The four early-return guards at the top of applyForJob (source lines
229-276), transcribed in source order.  The dedup guard keeps the source's
surrounding length-greater-than-zero check; the blacklist and keyword guards
keep the source's truthiness conjuncts on company and description, and the
keyword guard is entered whenever descriptionKeywords is present (a present
empty array is truthy in JS). -/
def shouldApply (jobDetails : JobDetails) (appliedJobs : List IAppliedJob)
    (options : IApplyForJobOptions) : ScreenResult :=
  if strFalsy jobDetails.title || strFalsy jobDetails.company ||
      strFalsy jobDetails.description then
    .skipIncomplete
  else if !appliedJobs.isEmpty &&
      appliedJobs.any (fun appliedJob =>
        jobDetails.title == some appliedJob.title &&
        jobDetails.company == some appliedJob.company) then
    .skipAlreadyApplied
  else if (match jobDetails.company, options.blackListCompanies with
           | some c, some bl => c != "" && bl.contains c
           | _, _ => false) then
    .skipBlacklisted
  else if (match jobDetails.description, options.descriptionKeywords with
           | some d, some kws => d != "" && !(kws.any fun kw => includesLower d kw)
           | _, _ => false) then
    .skipKeywordMismatch
  else
    .accept

/-- Environment of one wizard run: whether the jobs-apply-button click
succeeds (it throws when the listing was already applied to on the board),
the first progress-bar reading after entering the wizard, whether the resume
selection step succeeds, and the successive progress-bar readings inside the
stepping do-while loop (none models a null ariaValueNow). -/
structure WizardEnv where
  applyClickOk : Bool
  initialRead : Option Nat
  resumeOk : Bool
  loopReads : List (Option Nat)
deriving DecidableEq

/-- How the stepping do-while loop of applyForJob (source lines 327-365) ends
on a given list of readings: it broke out via the stuck check, the loop
condition failed with the recorded value, or the supplied readings were
exhausted with the loop still running. -/
inductive StepOutcome where
  | stuckAt (v : Nat)
  | reached (v : Nat)
  | stillRunning (v : Nat)
deriving DecidableEq

/-- The stepping do-while loop of applyForJob: porcentNumber starts at 0;
each iteration reads the bar, and on a truthy reading judges the wizard stuck
when the value is nonzero and equal to the previous reading, else stores it;
the loop repeats while porcentNumber is below 100. -/
def steppingLoop (porcentNumber : Nat) : List (Option Nat) → StepOutcome
  | [] => .stillRunning porcentNumber
  | read :: rest =>
    match read with
    | some value =>
      if value != 0 && value == porcentNumber then .stuckAt value
      else if value < 100 then steppingLoop value rest
      else .reached value
    | none =>
      if porcentNumber < 100 then steppingLoop porcentNumber rest
      else .reached porcentNumber

/-- Terminal description of one applyForJob invocation. -/
inductive Outcome where
  | screenedOut (r : ScreenResult)
  | alreadyApplied
  | stuckZero
  | stuck
  | completed
  | exitedOver100
  | running
deriving DecidableEq

/-- Observable result of one applyForJob invocation: the outcome tag, the
ledger records written by writeAppliedJobs in order, the closeApply calls in
order (the Bool is the confirm argument), and whether the stepping do-while
loop was entered. -/
structure RunResult where
  outcome : Outcome
  records : List IAppliedJob
  closes : List Bool
  loopEntered : Bool
deriving DecidableEq

/-- The wizard-driving part of applyForJob (source lines 278-381), after the
screening cascade accepted.  Transcribed branch by branch: a failed apply
click returns with no record; a first reading of exactly 0 records a failure,
closes with confirmation and returns; the resume-selection catch records a
failure and closes with confirmation but does NOT return, so control always
falls through into the stepping loop; a stuck loop records a failure and
closes with confirmation; a final porcentNumber of exactly 100 records a
success and closes without confirmation. -/
def runWizard (title company : String) (env : WizardEnv) : RunResult :=
  if !env.applyClickOk then
    ⟨.alreadyApplied, [], [], false⟩
  else if env.initialRead == some 0 then
    ⟨.stuckZero, [⟨title, company, false⟩], [true], false⟩
  else
    let pre : List IAppliedJob × List Bool :=
      if env.resumeOk then ([], []) else ([⟨title, company, false⟩], [true])
    match steppingLoop 0 env.loopReads with
    | .stuckAt _ => ⟨.stuck, pre.1 ++ [⟨title, company, false⟩], pre.2 ++ [true], true⟩
    | .reached v =>
      if v == 100 then
        ⟨.completed, pre.1 ++ [⟨title, company, true⟩], pre.2 ++ [false], true⟩
      else ⟨.exitedOver100, pre.1, pre.2, true⟩
    | .stillRunning _ => ⟨.running, pre.1, pre.2, true⟩

/-- One full applyForJob invocation: the screening cascade followed, on
accept, by the wizard run.  Every skip returns before any writeAppliedJobs
call, so a screened-out listing writes nothing. -/
def applyForJob (jobDetails : JobDetails) (appliedJobs : List IAppliedJob)
    (options : IApplyForJobOptions) (env : WizardEnv) : RunResult :=
  match shouldApply jobDetails appliedJobs options with
  | .accept => runWizard (jobDetails.title.getD "") (jobDetails.company.getD "") env
  | r => ⟨.screenedOut r, [], [], false⟩

/-- What the next-page lookup of init yields on a given iteration: a button
handle, null, or a thrown error (anywhere inside the try block). -/
inductive NextLookup where
  | found
  | absent
  | err
deriving DecidableEq

/-- Why the do-while loop of init stopped. -/
inductive StopCause where
  | pageCap
  | noNextButton
  | lookupError
deriving DecidableEq

/-- Events of one init run, in order.  processQuery abstracts the whole
per-query listing work of getJobs (scroll, load listings, apply loop);
navigate is the buildUrl plus page.goto of that query. -/
inductive PageEvent where
  | loadLedger
  | navigate (q : Nat)
  | processQuery (q : Nat)
  | clickNext
  | waitResults
  | nextPageError
deriving DecidableEq

/-- Event trace of one getJobs(queries) call with nq queries: every query is
navigated to and processed, in order. -/
def getJobsTrace : Nat → List PageEvent
  | 0 => []
  | n + 1 => getJobsTrace n ++ [.navigate n, .processQuery n]

/-- Observable result of the init do-while loop: its event trace, the number
of completed getJobs passes, the number of next-page clicks (the page counter
of the source is 1 plus this), and why it stopped. -/
structure InitResult where
  events : List PageEvent
  passes : Nat
  clicks : Nat
  stop : StopCause
deriving DecidableEq

/-- The do-while loop of init (source lines 81-97).  The source continues
while the next-page button was found and the incremented page counter is
below 5; with page starting at 1 that allows exactly fuel = 4 - page further
clicks, so the loop is entered with fuel 3.  A lookup error is caught and
breaks the loop; a null lookup ends it via the loop condition. -/
def initLoop (nq : Nat) (look : Nat → NextLookup) : Nat → Nat → InitResult
  | iter, 0 =>
    match look iter with
    | .err => ⟨getJobsTrace nq ++ [.nextPageError], 1, 0, .lookupError⟩
    | .absent => ⟨getJobsTrace nq, 1, 0, .noNextButton⟩
    | .found => ⟨getJobsTrace nq ++ [.clickNext, .waitResults], 1, 1, .pageCap⟩
  | iter, fuel + 1 =>
    match look iter with
    | .err => ⟨getJobsTrace nq ++ [.nextPageError], 1, 0, .lookupError⟩
    | .absent => ⟨getJobsTrace nq, 1, 0, .noNextButton⟩
    | .found =>
      let r := initLoop nq look (iter + 1) fuel
      ⟨getJobsTrace nq ++ [.clickNext, .waitResults] ++ r.events,
       r.passes + 1, r.clicks + 1, r.stop⟩

/-- One init run over nq queries: the page loop entered at page 1, hence with
fuel 3 remaining next-page advances before the page-below-5 bound stops it. -/
def initRun (nq : Nat) (look : Nat → NextLookup) : InitResult :=
  initLoop nq look 0 3

/-- Full event trace of init: the ledger file is read and parsed once, before
the page loop runs. -/
def fullRunEvents (nq : Nat) (look : Nat → NextLookup) : List PageEvent :=
  .loadLedger :: (initRun nq look).events

/-- Occurrence count of an event in a trace. -/
def countEv (e : PageEvent) : List PageEvent → Nat
  | [] => 0
  | x :: t => (if x = e then 1 else 0) + countEv e t

/-- The in-memory appliedJobs array together with the contents of the
APPLIED_JOBS_PATH file it mirrors. -/
structure Store where
  mem : List IAppliedJob
  file : List IAppliedJob
deriving DecidableEq

/-- writeAppliedJobs of the source: push the record onto the in-memory array
and rewrite the whole file with the full updated array. -/
def writeAppliedJobs (st : Store) (appliedJob : IAppliedJob) : Store :=
  { mem := st.mem ++ [appliedJob], file := st.mem ++ [appliedJob] }

/-- The ledger load at the top of init: the file is read and parsed into the
in-memory array. -/
def loadLedger (st : Store) : Store :=
  { mem := st.file, file := st.file }

/-- The sequence of writeAppliedJobs calls a run performs, folded over the
store. -/
def runAppends (st : Store) (rs : List IAppliedJob) : Store :=
  rs.foldl writeAppliedJobs st

/-- Modelled from the spec (section 4.3, rule 1): a detail field is missing
when it is unextracted or empty. -/
def fieldMissing (f : Option String) : Bool :=
  f == none || f == some ""

/-- Modelled from the spec (section 4.3): the screening contract as the spec
words it — fixed order, first match wins — with rule 4 amended as claim C4's
counterexample forces: the keyword rule fires whenever descriptionKeywords is
present and none of its entries occurs case-insensitively in the description
(so a present empty list always fires). -/
def shouldApplySpecAmended (jd : JobDetails) (ledger : List IAppliedJob)
    (options : IApplyForJobOptions) : ScreenResult :=
  if fieldMissing jd.title || fieldMissing jd.company || fieldMissing jd.description then
    .skipIncomplete
  else if ledger.any (fun r => jd.title == some r.title && jd.company == some r.company) then
    .skipAlreadyApplied
  else if (match options.blackListCompanies with
           | some bl => bl.contains (jd.company.getD "")
           | none => false) then
    .skipBlacklisted
  else if (match options.descriptionKeywords with
           | some kws => !(kws.any fun kw => includesLower (jd.description.getD "") kw)
           | none => false) then
    .skipKeywordMismatch
  else
    .accept

/-- The screening contract exactly as claim C4 words it: identical to the
spec cascade except that rule 4 additionally requires the keyword list to be
non-empty. -/
def shouldApplyClaimed (jd : JobDetails) (ledger : List IAppliedJob)
    (options : IApplyForJobOptions) : ScreenResult :=
  if fieldMissing jd.title || fieldMissing jd.company || fieldMissing jd.description then
    .skipIncomplete
  else if ledger.any (fun r => jd.title == some r.title && jd.company == some r.company) then
    .skipAlreadyApplied
  else if (match options.blackListCompanies with
           | some bl => bl.contains (jd.company.getD "")
           | none => false) then
    .skipBlacklisted
  else if (match options.descriptionKeywords with
           | some kws => !kws.isEmpty && !(kws.any fun kw => includesLower (jd.description.getD "") kw)
           | none => false) then
    .skipKeywordMismatch
  else
    .accept

/-- Next-page lookup that finds the button on the first page only. -/
def lookOnce : Nat → NextLookup :=
  fun i => if i == 0 then .found else .absent

/-- Next-page lookup that finds the button on the first page and then throws. -/
def lookThenErr : Nat → NextLookup :=
  fun i => if i == 0 then .found else .err

theorem isEmpty_guard {α : Type} (l : List α) (f : α → Bool) :
    (!l.isEmpty && l.any f) = l.any f := by
  cases l <;> rfl

theorem optBeqNone (s : String) : (some s == (none : Option String)) = false := rfl

theorem optBeqSome (s t : String) : (some s == some t) = (s == t) := rfl

theorem runAppends_mem_file (rs : List IAppliedJob) (st : Store) (h : st.file = st.mem) :
    (runAppends st rs).mem = st.mem ++ rs ∧ (runAppends st rs).file = st.mem ++ rs := by
  induction rs generalizing st with
  | nil => constructor <;> simp [runAppends, h]
  | cons r rest ih =>
    have hstep := ih (writeAppliedJobs st r) rfl
    simpa [runAppends, writeAppliedJobs] using hstep

theorem countEv_append (e : PageEvent) (l1 l2 : List PageEvent) :
    countEv e (l1 ++ l2) = countEv e l1 + countEv e l2 := by
  induction l1 with
  | nil => simp [countEv]
  | cons x t ih => simp [countEv, ih]; omega

theorem getJobsTrace_no_load (nq : Nat) : countEv .loadLedger (getJobsTrace nq) = 0 := by
  induction nq with
  | zero => rfl
  | succ k ih => simp [getJobsTrace, countEv_append, ih, countEv]

theorem initLoop_no_load (nq : Nat) (look : Nat → NextLookup) :
    ∀ fuel iter, countEv .loadLedger (initLoop nq look iter fuel).events = 0 := by
  intro fuel
  induction fuel with
  | zero =>
    intro iter
    cases h : look iter <;>
      simp [initLoop, h, countEv_append, getJobsTrace_no_load, countEv]
  | succ k ih =>
    intro iter
    cases h : look iter <;>
      simp [initLoop, h, countEv_append, getJobsTrace_no_load, countEv, ih]

theorem getJobsTrace_count_navigate (nq q : Nat) :
    countEv (.navigate q) (getJobsTrace nq) = if q < nq then 1 else 0 := by
  induction nq with
  | zero => simp [getJobsTrace, countEv]
  | succ k ih =>
    have h2 : countEv (.navigate q) [.navigate k, .processQuery k] =
        if q = k then 1 else 0 := by
      by_cases hqk : q = k
      · subst hqk; simp [countEv]
      · have hkq : ¬ (k = q) := fun h => hqk h.symm
        simp [countEv, hkq, hqk]
    rw [getJobsTrace, countEv_append, ih, h2]
    split_ifs <;> omega

theorem initLoop_count_navigate (nq : Nat) (look : Nat → NextLookup) (q : Nat) (hq : q < nq) :
    ∀ fuel iter, countEv (.navigate q) (initLoop nq look iter fuel).events =
      (initLoop nq look iter fuel).passes := by
  intro fuel
  induction fuel with
  | zero =>
    intro iter
    cases h : look iter <;>
      simp [initLoop, h, countEv_append, getJobsTrace_count_navigate, hq, countEv]
  | succ k ih =>
    intro iter
    cases h : look iter <;>
      simp [initLoop, h, countEv_append, getJobsTrace_count_navigate, hq, countEv, ih]
    omega

theorem initLoop_passes_le (nq : Nat) (look : Nat → NextLookup) :
    ∀ fuel iter, (initLoop nq look iter fuel).passes ≤ fuel + 1 ∧
      (initLoop nq look iter fuel).clicks ≤ fuel + 1 := by
  intro fuel
  induction fuel with
  | zero =>
    intro iter
    cases h : look iter <;> simp [initLoop, h]
  | succ k ih =>
    intro iter
    cases h : look iter
    · have hrec := ih (iter + 1)
      simp only [initLoop, h]
      constructor <;> simp <;> omega
    · simp [initLoop, h]
    · simp [initLoop, h]

/-- C1: on a run where resume selection fails, the driver does record a
failure and close with cancellation confirmation, but the missing return in
the source's catch block means control falls through INTO the stepping loop,
contradicting the claim that the loop is never entered: here the loop runs,
judges the wizard stuck at 55, and a second failure record is written.  This
evaluates the code at the failing input of the code_bug. -/
theorem noResumeFallsThroughToLoop :
    applyForJob ⟨some "T", some "C", some "D"⟩ [] ⟨none, none⟩
        ⟨true, some 50, false, [some 55, some 55]⟩ =
      ⟨.stuck, [⟨"T", "C", false⟩, ⟨"T", "C", false⟩], [true, true], true⟩ := rfl

/-- C2: a single applyForJob invocation in which resume selection fails and
the wizard then reports 100 appends TWO records (the no-resume failure record
and then a success record), contradicting the claim that every terminal
outcome other than AlreadyApplied appends exactly one record.  This evaluates
the code at the failing input of the code_bug (same missing return as C1). -/
theorem noResumeDoubleRecord :
    applyForJob ⟨some "T2", some "C2", some "D2"⟩ [] ⟨none, none⟩
        ⟨true, some 50, false, [some 100]⟩ =
      ⟨.completed, [⟨"T2", "C2", false⟩, ⟨"T2", "C2", true⟩], [true, false], true⟩ := rfl

/-- C3: the wizard driver as a function of the progress readings.  A first
reading of 0 ends in the zero-progress Stuck outcome with a failed record and
a confirmed close; readings 10,40,70,100 end Completed with a success record;
readings 20,55,55 end Stuck at the repeated 55 with a failed record.  The
first reading is the one taken right after entering the wizard, the rest are
the stepping-loop readings. -/
theorem wizardProgressSequences (t c : String) (ro : Bool) (lr : List (Option Nat)) :
    runWizard t c ⟨true, some 0, ro, lr⟩ =
      ⟨.stuckZero, [⟨t, c, false⟩], [true], false⟩ ∧
    runWizard t c ⟨true, some 10, true, [some 40, some 70, some 100]⟩ =
      ⟨.completed, [⟨t, c, true⟩], [false], true⟩ ∧
    runWizard t c ⟨true, some 20, true, [some 55, some 55]⟩ =
      ⟨.stuck, [⟨t, c, false⟩], [true], true⟩ :=
  ⟨rfl, rfl, rfl⟩

/-- C4 counterexample: with a present but EMPTY descriptionKeywords list the
source skips with keyword-mismatch (an empty JS array is truthy and its .some
is false), while the cascade worded as the claim states it — rule 4 requires
a non-empty list — accepts.  So the claim's "non-empty list" condition is
false of the code. -/
theorem emptyKeywordListSkips :
    shouldApply ⟨some "T", some "C", some "D"⟩ [] ⟨none, some []⟩ = .skipKeywordMismatch ∧
    shouldApplyClaimed ⟨some "T", some "C", some "D"⟩ [] ⟨none, some []⟩ = .accept :=
  ⟨rfl, rfl⟩

/-- C4 (amended): the screening decision of the source equals the spec's
fixed-order first-match cascade — incomplete-details, already-applied,
blacklisted, keyword-mismatch, accept — with the keyword rule amended to fire
whenever descriptionKeywords is present (possibly empty) and none of its
entries occurs as a case-insensitive substring of the description; a single
match suffices to pass. -/
theorem shouldApplyMatchesSpecCascade (jd : JobDetails) (ledger : List IAppliedJob)
    (options : IApplyForJobOptions) :
    shouldApply jd ledger options = shouldApplySpecAmended jd ledger options := by
  obtain ⟨t, c, d⟩ := jd
  obtain ⟨bl, kws⟩ := options
  cases t with
  | none => rfl
  | some ts =>
  by_cases hts : ts = ""
  · subst hts; rfl
  · have hts2 : (ts == "") = false := by simpa using hts
    cases c with
    | none =>
      simp [shouldApply, shouldApplySpecAmended, strFalsy, fieldMissing, hts2]
    | some cs =>
    by_cases hcs : cs = ""
    · subst hcs
      simp [shouldApply, shouldApplySpecAmended, strFalsy, fieldMissing, hts2]
    · have hcs2 : (cs == "") = false := by simpa using hcs
      cases d with
      | none =>
        simp [shouldApply, shouldApplySpecAmended, strFalsy, fieldMissing, hts2, hcs2]
      | some ds =>
      by_cases hds : ds = ""
      · subst hds
        simp [shouldApply, shouldApplySpecAmended, strFalsy, fieldMissing, hts2, hcs2]
      · have hds2 : (ds == "") = false := by simpa using hds
        cases bl <;> cases kws <;>
          simp [shouldApply, shouldApplySpecAmended, strFalsy, fieldMissing,
            hts2, hcs2, hds2, isEmpty_guard, optBeqNone, optBeqSome, bne]

/-- C5 counterexample: a listing whose (title, company) pair exactly matches
a ledger record but whose description is missing is skipped as
incomplete-details, not as already-applied — the incomplete rule fires first,
so the claim's "regardless of the other fields" is false of the code. -/
theorem dedupRequiresCompleteDetails :
    ((⟨"A", "B", true⟩ : IAppliedJob) ∈ [(⟨"A", "B", true⟩ : IAppliedJob)]) ∧
    ((⟨some "A", some "B", none⟩ : JobDetails).title = some "A") ∧
    ((⟨some "A", some "B", none⟩ : JobDetails).company = some "B") ∧
    shouldApply ⟨some "A", some "B", none⟩ [⟨"A", "B", true⟩] ⟨none, none⟩ ≠
      .skipAlreadyApplied ∧
    shouldApply ⟨some "A", some "B", none⟩ [⟨"A", "B", true⟩] ⟨none, none⟩ =
      .skipIncomplete := by
  refine ⟨by decide, rfl, rfl, by decide, rfl⟩

/-- C5 (amended): for every listing with complete details (title, company and
description present and non-empty) whose (title, company) pair exactly equals
that of some ledger record, screening returns Skip(already-applied),
regardless of the remaining details, the options, and whether the prior
attempt succeeded; matching is exact string equality on both components, and
the invocation writes nothing to the ledger. -/
theorem dedupSkipsAlreadyApplied (jd : JobDetails) (ledger : List IAppliedJob)
    (options : IApplyForJobOptions) (env : WizardEnv) (r : IAppliedJob)
    (hr : r ∈ ledger) (ht : jd.title = some r.title) (hc : jd.company = some r.company)
    (htn : r.title ≠ "") (hcn : r.company ≠ "")
    (hd : strFalsy jd.description = false) :
    shouldApply jd ledger options = .skipAlreadyApplied ∧
    (applyForJob jd ledger options env).records = [] := by
  have h1 : (strFalsy jd.title || strFalsy jd.company || strFalsy jd.description) = false := by
    rw [ht, hc, hd]
    simp [strFalsy, htn, hcn]
  have h2 : (!ledger.isEmpty && ledger.any fun appliedJob =>
      jd.title == some appliedJob.title && jd.company == some appliedJob.company) = true := by
    rw [isEmpty_guard]
    exact List.any_eq_true.mpr ⟨r, hr, by rw [ht, hc]; simp⟩
  have hmain : shouldApply jd ledger options = .skipAlreadyApplied := by
    unfold shouldApply
    rw [h1, h2]
    simp
  exact ⟨hmain, by simp [applyForJob, hmain]⟩

/-- Witness for C5's amended theorem at a concrete instance. -/
theorem dedupSkipsAlreadyApplied_witness :
    ((⟨"A", "B", false⟩ : IAppliedJob) ∈ [(⟨"A", "B", false⟩ : IAppliedJob)]) ∧
    ((⟨some "A", some "B", some "D"⟩ : JobDetails).title = some "A") ∧
    (shouldApply ⟨some "A", some "B", some "D"⟩ [⟨"A", "B", false⟩] ⟨none, none⟩ =
      .skipAlreadyApplied ∧
    (applyForJob ⟨some "A", some "B", some "D"⟩ [⟨"A", "B", false⟩] ⟨none, none⟩
      ⟨true, none, true, []⟩).records = []) :=
  ⟨by decide, rfl,
    dedupSkipsAlreadyApplied ⟨some "A", some "B", some "D"⟩ [⟨"A", "B", false⟩]
      ⟨none, none⟩ ⟨true, none, true, []⟩ ⟨"A", "B", false⟩
      (by decide) rfl rfl (by decide) (by decide) rfl⟩

/-- C6 counterexample: with a single query and a next-page button found on
the first lookup only, the run's trace is navigate, process, click next, wait
for results, and then NAVIGATE AND PROCESS THE QUERY AGAIN: the query is
re-navigated after the page advance (twice in total), refuting the claim that
pagination reuses the same query context without re-navigating the search
request. -/
theorem paginationRenavigates :
    (initRun 1 lookOnce).events =
      [.navigate 0, .processQuery 0, .clickNext, .waitResults,
       .navigate 0, .processQuery 0] ∧
    countEv (.navigate 0) (initRun 1 lookOnce).events = 2 :=
  ⟨rfl, rfl⟩

/-- C6 (amended): the page loop is outermost — every pass of the loop
re-processes every query, rebuilding and re-navigating its search request, so
each query is navigated to exactly once per pass (hence passes-many times per
run), and with several queries one query's pages interleave with the other
queries' processing. -/
theorem everyPassRenavigatesEachQuery (nq : Nat) (look : Nat → NextLookup) (q : Nat)
    (hq : q < nq) :
    countEv (.navigate q) (initRun nq look).events = (initRun nq look).passes :=
  initLoop_count_navigate nq look q hq 3 0

/-- Witness for C6's amended theorem at a concrete instance. -/
theorem everyPassRenavigatesEachQuery_witness :
    0 < 1 ∧
    countEv (.navigate 0) (initRun 1 lookOnce).events = (initRun 1 lookOnce).passes :=
  ⟨by decide, everyPassRenavigatesEachQuery 1 lookOnce 0 (by decide)⟩

/-- C7: for every lookup behaviour the run performs at most 5 getJobs passes
(in fact at most 4) and at most 4 next-page clicks, so the page counter —
which starts at 1 and is only ever incremented, once per click — never
exceeds 5; when a next-page control is always exposed the run performs
exactly 4 passes and the counter ends exactly at 5. -/
theorem pageCounterBounded (nq : Nat) (look : Nat → NextLookup) :
    (initRun nq look).passes ≤ 5 ∧
    (initRun nq look).clicks ≤ 4 ∧
    1 + (initRun nq look).clicks ≤ 5 ∧
    (initRun nq (fun _ => NextLookup.found)).passes = 4 ∧
    1 + (initRun nq (fun _ => NextLookup.found)).clicks = 5 := by
  obtain ⟨hp, hc⟩ := initLoop_passes_le nq look 3 0
  unfold initRun
  exact ⟨by omega, by omega, by omega, rfl, rfl⟩

/-- C8: the ledger is append-only across a run — after loading the stored
file once and performing any sequence of appends, the in-memory array and the
persisted file both equal the original file contents followed by the appended
records, so the original records survive unchanged, in order, as a prefix,
and the length never decreases; each single append persists the full updated
sequence, not just the new record; and the run's event trace reads the ledger
exactly once, before any query is processed. -/
theorem ledgerAppendOnly (st : Store) (rs : List IAppliedJob) (nq : Nat)
    (look : Nat → NextLookup) :
    (runAppends (loadLedger st) rs).mem = st.file ++ rs ∧
    (runAppends (loadLedger st) rs).file = st.file ++ rs ∧
    st.file <+: (runAppends (loadLedger st) rs).mem ∧
    st.file.length ≤ (runAppends (loadLedger st) rs).mem.length ∧
    (∀ st2 r2, writeAppliedJobs st2 r2 = ⟨st2.mem ++ [r2], st2.mem ++ [r2]⟩) ∧
    (fullRunEvents nq look).head? = some .loadLedger ∧
    countEv .loadLedger (fullRunEvents nq look) = 1 := by
  have hm2 : (runAppends (loadLedger st) rs).mem = st.file ++ rs := by
    simpa [loadLedger] using (runAppends_mem_file rs (loadLedger st) rfl).1
  have hf2 : (runAppends (loadLedger st) rs).file = st.file ++ rs := by
    simpa [loadLedger] using (runAppends_mem_file rs (loadLedger st) rfl).2
  refine ⟨hm2, hf2, ?_, ?_, fun st2 r2 => rfl, rfl, ?_⟩
  · rw [hm2]; exact ⟨rs, rfl⟩
  · rw [hm2]; simp
  · simp [fullRunEvents, countEv, initRun, initLoop_no_load nq look 3 0]

/-- C9: when the first k next-page lookups find the button and the lookup on
iteration k throws, the error is caught: the run stops paging with the
lookupError cause (a normal result, nothing propagates), all k+1 getJobs
passes completed before the failure are kept, and exactly k pages were
advanced. -/
theorem nextPageErrorStopsPaging (nq k : Nat) (look : Nat → NextLookup)
    (hk : k ≤ 3) (hbefore : ∀ j, j < k → look j = .found) (herr : look k = .err) :
    (initRun nq look).stop = .lookupError ∧
    (initRun nq look).passes = k + 1 ∧
    (initRun nq look).clicks = k := by
  have hcase : k = 0 ∨ k = 1 ∨ k = 2 ∨ k = 3 := by omega
  rcases hcase with h | h | h | h <;> subst h
  · simp [initRun, initLoop, herr]
  · have h0 := hbefore 0 (by omega)
    simp [initRun, initLoop, h0, herr]
  · have h0 := hbefore 0 (by omega)
    have h1 := hbefore 1 (by omega)
    simp [initRun, initLoop, h0, h1, herr]
  · have h0 := hbefore 0 (by omega)
    have h1 := hbefore 1 (by omega)
    have h2 := hbefore 2 (by omega)
    simp [initRun, initLoop, h0, h1, h2, herr]

/-- Witness for C9 at a concrete instance: button found on the first lookup,
error on the second. -/
theorem nextPageErrorStopsPaging_witness :
    (1 ≤ 3 ∧ lookThenErr 1 = .err) ∧
    ((initRun 2 lookThenErr).stop = .lookupError ∧
      (initRun 2 lookThenErr).passes = 2 ∧
      (initRun 2 lookThenErr).clicks = 1) :=
  ⟨⟨by decide, rfl⟩,
    nextPageErrorStopsPaging 2 1 lookThenErr (by decide)
      (fun j hj => by
        have hj0 : j = 0 := by omega
        subst hj0
        rfl) rfl⟩

/-- C10: inside the stepping loop a reading of 0 never triggers the stuck
judgment (the check requires a non-zero value), so a wizard whose in-loop
readings are 0 forever never terminates: after any finite number n of
all-zero readings the loop is still running, and the surrounding run has
written no record and reached no terminal outcome. -/
theorem zeroProgressLoopNeverTerminates (n : Nat) (t c : String) :
    (∀ pn rest, steppingLoop pn (some 0 :: rest) = steppingLoop 0 rest) ∧
    steppingLoop 0 (List.replicate n (some 0)) = .stillRunning 0 ∧
    runWizard t c ⟨true, some 50, true, List.replicate n (some 0)⟩ =
      ⟨.running, [], [], true⟩ := by
  have hz : ∀ m : Nat, steppingLoop 0 (List.replicate m (some 0)) = .stillRunning 0 := by
    intro m
    induction m with
    | zero => rfl
    | succ k ih => rw [List.replicate_succ]; exact ih
  refine ⟨fun pn rest => rfl, hz n, ?_⟩
  simp [runWizard, hz n]
